import Mathlib

/-!
Verification of the `SchemaRoot` aggregator from `genson/schema/root.py`.

The aggregator is embedded shallowly: Python dicts at the top level of a
schema fragment become association lists (`JsonObj`), Python's mutable dict
objects passed to `add_schema` live in an explicit object store (`Store`)
so that copy-vs-in-place-mutation behaviour of the source is visible, and
the collaborating inference engine `SchemaNode` (whose source file
`genson/schema/node.py` is not part of this source unit) is modelled from
the spec's engine contract.
-/

/-- A JSON value.  Numbers are modelled by `Int`; the aggregator never
inspects numeric values so this loses nothing relevant. -/
inductive JVal where
  | null : JVal
  | bool (b : Bool) : JVal
  | int (n : Int) : JVal
  | str (s : String) : JVal
  | arr (elems : List JVal) : JVal
  | obj (entries : List (String × JVal)) : JVal

mutual

/-- Structural equality of JSON values as a boolean, written as a mutual
structural recursion so that it reduces inside the kernel. -/
def JVal.beq : JVal → JVal → Bool
  | .null, .null => true
  | .bool x, .bool y => x == y
  | .int x, .int y => x == y
  | .str x, .str y => x == y
  | .arr xs, .arr ys => JVal.beqL xs ys
  | .obj xs, .obj ys => JVal.beqO xs ys
  | _, _ => false

/-- Pointwise `JVal.beq` on lists of values. -/
def JVal.beqL : List JVal → List JVal → Bool
  | [], [] => true
  | x :: xs, y :: ys => JVal.beq x y && JVal.beqL xs ys
  | _, _ => false

/-- Pointwise `JVal.beq` on lists of key/value entries. -/
def JVal.beqO : List (String × JVal) → List (String × JVal) → Bool
  | [], [] => true
  | (k, v) :: xs, (l, w) :: ys => k == l && JVal.beq v w && JVal.beqO xs ys
  | _, _ => false

end

mutual

theorem JVal.beq_iff : (a b : JVal) → (JVal.beq a b = true ↔ a = b)
  | .null, .null => by simp [JVal.beq]
  | .null, .bool _ => by simp [JVal.beq]
  | .null, .int _ => by simp [JVal.beq]
  | .null, .str _ => by simp [JVal.beq]
  | .null, .arr _ => by simp [JVal.beq]
  | .null, .obj _ => by simp [JVal.beq]
  | .bool _, .null => by simp [JVal.beq]
  | .bool _, .bool _ => by simp [JVal.beq]
  | .bool _, .int _ => by simp [JVal.beq]
  | .bool _, .str _ => by simp [JVal.beq]
  | .bool _, .arr _ => by simp [JVal.beq]
  | .bool _, .obj _ => by simp [JVal.beq]
  | .int _, .null => by simp [JVal.beq]
  | .int _, .bool _ => by simp [JVal.beq]
  | .int _, .int _ => by simp [JVal.beq]
  | .int _, .str _ => by simp [JVal.beq]
  | .int _, .arr _ => by simp [JVal.beq]
  | .int _, .obj _ => by simp [JVal.beq]
  | .str _, .null => by simp [JVal.beq]
  | .str _, .bool _ => by simp [JVal.beq]
  | .str _, .int _ => by simp [JVal.beq]
  | .str _, .str _ => by simp [JVal.beq]
  | .str _, .arr _ => by simp [JVal.beq]
  | .str _, .obj _ => by simp [JVal.beq]
  | .arr _, .null => by simp [JVal.beq]
  | .arr _, .bool _ => by simp [JVal.beq]
  | .arr _, .int _ => by simp [JVal.beq]
  | .arr _, .str _ => by simp [JVal.beq]
  | .arr xs, .arr ys => by
      have h := JVal.beqL_iff xs ys
      simp [JVal.beq, h]
  | .arr _, .obj _ => by simp [JVal.beq]
  | .obj _, .null => by simp [JVal.beq]
  | .obj _, .bool _ => by simp [JVal.beq]
  | .obj _, .int _ => by simp [JVal.beq]
  | .obj _, .str _ => by simp [JVal.beq]
  | .obj _, .arr _ => by simp [JVal.beq]
  | .obj xs, .obj ys => by
      have h := JVal.beqO_iff xs ys
      simp [JVal.beq, h]

theorem JVal.beqL_iff : (xs ys : List JVal) → (JVal.beqL xs ys = true ↔ xs = ys)
  | [], [] => by simp [JVal.beqL]
  | [], _ :: _ => by simp [JVal.beqL]
  | _ :: _, [] => by simp [JVal.beqL]
  | x :: xs, y :: ys => by
      have h1 := JVal.beq_iff x y
      have h2 := JVal.beqL_iff xs ys
      simp [JVal.beqL, h1, h2]

theorem JVal.beqO_iff : (xs ys : List (String × JVal)) → (JVal.beqO xs ys = true ↔ xs = ys)
  | [], [] => by simp [JVal.beqO]
  | [], _ :: _ => by simp [JVal.beqO]
  | _ :: _, [] => by simp [JVal.beqO]
  | (k, v) :: xs, (l, w) :: ys => by
      have h1 := JVal.beq_iff v w
      have h2 := JVal.beqO_iff xs ys
      simp [JVal.beqO, h1, h2, and_assoc]

end

instance : DecidableEq JVal := fun a b => decidable_of_iff _ (JVal.beq_iff a b)

/-- A Python dict holding a schema fragment: an insertion-ordered
association list with (on all inputs actually produced by Python) unique
keys. -/
abbrev JsonObj := List (String × JVal)

/-- The keys of a fragment, in insertion order. -/
def keys (o : JsonObj) : List String := o.map Prod.fst

/-- Python `k in d`. -/
def hasKey (o : JsonObj) (k : String) : Bool := o.any (fun p => p.1 = k)

/-- Python `d[k]` (first binding wins; Python dicts have unique keys). -/
def lookupKey : JsonObj → String → Option JVal
  | [], _ => none
  | p :: ps, k => if p.1 = k then some p.2 else lookupKey ps k

/-- Python `del d[k]` as a value operation: removes every binding of `k`
(at most one exists on a genuine Python dict). -/
def delKey (o : JsonObj) (k : String) : JsonObj :=
  o.filter (fun p => p.1 ≠ k)

/-- Python `a.update(b)` as a value operation: existing keys keep their
position but take `b`'s value; keys new in `b` are appended in `b`'s
order. -/
def updateObj (a b : JsonObj) : JsonObj :=
  (a.map (fun p =>
    match lookupKey b p.1 with
    | some v => (p.1, v)
    | none => p))
  ++ b.filter (fun p => ¬ hasKey a p.1)

/-- Python truthiness of a JSON value (`None`, `False`, `0`, `""`, `[]`,
`{}` are falsy). -/
def truthyV : JVal → Bool
  | .null => false
  | .bool b => b
  | .int n => n ≠ 0
  | .str s => s ≠ ""
  | .arr elems => !elems.isEmpty
  | .obj entries => !entries.isEmpty

/-- Python truthiness of an optional value (`None` is falsy). -/
def truthyO : Option JVal → Bool
  | none => false
  | some v => truthyV v

/-- Python `x or y` for an optional `x` and a plain value `y`. -/
def pyOr (x : Option JVal) (y : JVal) : Option JVal :=
  if truthyO x then x else some y

/-- Python `x or y` returning the plain value (used where the result is
stored into a dict, as in `_base_schema`). -/
def pyOrD (x : Option JVal) (y : JVal) : JVal :=
  match x with
  | some v => if truthyV v then v else y
  | none => y

/-- An explicit store of the mutable top-level dict objects handled by
`add_schema`, so that the source's copy-before-delete discipline (and its
non-mutation consequences) can be stated.  References are indices. -/
structure Store where
  dicts : List JsonObj

/-- Dereference (out-of-range reads give the empty dict; all theorems
about mutation restrict to live references). -/
def Store.get (σ : Store) (r : Nat) : JsonObj := σ.dicts.getD r []

/-- In-place overwrite of one dict object. -/
def Store.set (σ : Store) (r : Nat) (v : JsonObj) : Store := ⟨σ.dicts.set r v⟩

/-- Allocate a fresh dict object (as Python's `dict(...)` copy or a
freshly built dict does) and return its reference. -/
def Store.alloc (σ : Store) (v : JsonObj) : Store × Nat :=
  (⟨σ.dicts ++ [v]⟩, σ.dicts.length)

example : hasKey [("$schema", JVal.str "u")] "$schema" = true := by decide
example : delKey [("$schema", JVal.str "u"), ("type", JVal.str "object")] "$schema"
    = [("type", JVal.str "object")] := by decide
example : updateObj [("a", JVal.int 1)] [("a", JVal.int 2), ("b", JVal.int 3)]
    = [("a", JVal.int 2), ("b", JVal.int 3)] := by decide

/-- An input the Inference Engine has absorbed: either a schema fragment
(via `add_schema`) or an example value (via `add_object`). -/
inductive EngineItem where
  | frag (f : JsonObj) : EngineItem
  | val (v : JVal) : EngineItem
deriving DecidableEq

/-- Modelled from the spec: the Inference Engine (`SchemaNode`, whose
source file `genson/schema/node.py` is not part of this source unit) is
specified only by its contract in spec §6.  The model records the
absorbed inputs; `to_schema`, `size` and structural equality below are
chosen to satisfy every bullet of the §6 contract while keeping the
type-specific merge strategies (explicitly out of scope) minimal. -/
structure SchemaNode where
  items : List EngineItem
deriving DecidableEq

/-- Modelled from the spec: a fresh, empty engine. -/
def SchemaNode.new : SchemaNode := ⟨[]⟩

/-- Modelled from the spec: `SchemaNode.add_schema` absorbs a fragment
(spec §6: `addFragment(fragment) -> void`). -/
def SchemaNode.add_schema (n : SchemaNode) (f : JsonObj) : SchemaNode :=
  ⟨n.items ++ [.frag f]⟩

/-- Modelled from the spec: `SchemaNode.add_object` absorbs an example
value (spec §6: `addValue(value) -> void`). -/
def SchemaNode.add_object (n : SchemaNode) (v : JVal) : SchemaNode :=
  ⟨n.items ++ [.val v]⟩

/-- Modelled from the spec: the type name the engine's out-of-scope
inference assigns to an example value. -/
def typeName : JVal → String
  | .null => "null"
  | .bool _ => "boolean"
  | .int _ => "integer"
  | .str _ => "string"
  | .arr _ => "array"
  | .obj _ => "object"

/-- Modelled from the spec: the fragment an absorbed input contributes to
the engine's output (fragments contribute themselves; values contribute a
type-specific fragment, whose exact shape is out of scope). -/
def renderItem : EngineItem → JsonObj
  | .frag f => f
  | .val v => [("type", .str (typeName v))]

/-- Modelled from the spec: `SchemaNode.to_schema` merges everything the
engine has absorbed into one fragment (spec §6: `toSchema() -> JSON
object`). -/
def SchemaNode.to_schema (n : SchemaNode) : JsonObj :=
  n.items.foldl (fun acc it => updateObj acc (renderItem it)) []

/-- Modelled from the spec: `len(SchemaNode)`; spec §6: `size() ->
integer ≥ 0; 0 iff no addFragment/addValue has ever succeeded`. -/
def SchemaNode.size (n : SchemaNode) : Nat := n.items.length

/-- Modelled from the spec: the engine's structural equality (spec §6:
independent of call order and idempotent under repeated identical
merges); two engines are equal when each has absorbed everything the
other has. -/
def SchemaNode.beq (a b : SchemaNode) : Bool :=
  a.items.all (fun i => b.items.contains i) && b.items.all (fun i => a.items.contains i)

/-- `SchemaRoot` from `genson/schema/root.py`: the engine `_root_node`
and the `$schema` value `schema_uri` (a Python attribute that is `None`
or whatever value was supplied / adopted). -/
structure SchemaRoot where
  _root_node : SchemaNode
  schema_uri : Option JVal

/-- `SchemaRoot.DEFAULT_URI`. -/
def DEFAULT_URI : JVal := .str "http://json-schema.org/schema#"

/-- `SchemaRoot.__init__(schema_uri=None)`: a fresh `SchemaNode` plus the
given `schema_uri`. -/
def SchemaRoot.new (schema_uri : Option JVal := none) : SchemaRoot :=
  ⟨SchemaNode.new, schema_uri⟩

/-- `SchemaRoot._base_schema`: `{'$schema': self.schema_uri or
self.DEFAULT_URI}`. -/
def SchemaRoot._base_schema (self : SchemaRoot) : JsonObj :=
  [("$schema", pyOrD self.schema_uri DEFAULT_URI)]

/-- `SchemaRoot.to_schema`: `schema = self._base_schema();
schema.update(self._root_node.to_schema()); return schema`.  The returned
dict is freshly built (`_base_schema` makes a new literal); callers that
need that freshness (`add_schema`'s Aggregator branch) allocate it in the
store. -/
def SchemaRoot.to_schema (self : SchemaRoot) : JsonObj :=
  updateObj self._base_schema self._root_node.to_schema

/-- The three runtime shapes `add_schema` dispatches on: another
`SchemaRoot`, a bare `SchemaNode`, or a raw dict (a reference into the
store, since raw dicts are caller-owned mutable objects). -/
inductive SchemaInput where
  | root (b : SchemaRoot) : SchemaInput
  | node (n : SchemaNode) : SchemaInput
  | raw (ref : Nat) : SchemaInput

/-- The suffix of `SchemaRoot.add_schema` after the `isinstance`
dispatch, with the local variable `schema` holding dict reference `ref`:

    if '$schema' in schema:
        self.schema_uri = self.schema_uri or schema['$schema']
        schema = dict(schema)
        del schema['$schema']
    self._root_node.add_schema(schema)

`schema = dict(schema)` allocates a copy and rebinds the local; the `del`
then mutates only that copy. -/
def add_schema_tail (σ : Store) (self : SchemaRoot) (ref : Nat) : Store × SchemaRoot :=
  let schema := σ.get ref
  if hasKey schema "$schema" then
    let self1 : SchemaRoot :=
      { self with schema_uri := pyOr self.schema_uri ((lookupKey schema "$schema").getD .null) }
    let alloc1 := σ.alloc (σ.get ref)
    let σ2 := alloc1.1.set alloc1.2 (delKey (alloc1.1.get alloc1.2) "$schema")
    (σ2, { self1 with _root_node := self1._root_node.add_schema (σ2.get alloc1.2) })
  else
    (σ, { self with _root_node := self._root_node.add_schema schema })

/-- `SchemaRoot.add_schema(schema)`:

    if isinstance(schema, SchemaRoot):
        schema_uri = schema.schema_uri
        schema = schema.to_schema()
        if schema_uri is None:
            del schema['$schema']
    elif isinstance(schema, SchemaNode):
        schema = schema.to_schema()
    ... (add_schema_tail)

In the `SchemaRoot` and `SchemaNode` branches the fragment produced by
`to_schema()` is a fresh dict, modelled by allocating it in the store;
the `del` in the first branch mutates that fresh dict in place. -/
def SchemaRoot.add_schema (σ : Store) (self : SchemaRoot) (inp : SchemaInput) :
    Store × SchemaRoot :=
  match inp with
  | .root b =>
      let schema_uri := b.schema_uri
      let alloc1 := σ.alloc b.to_schema
      let σ2 :=
        if schema_uri = none then
          alloc1.1.set alloc1.2 (delKey (alloc1.1.get alloc1.2) "$schema")
        else alloc1.1
      add_schema_tail σ2 self alloc1.2
  | .node n =>
      let alloc1 := σ.alloc n.to_schema
      add_schema_tail alloc1.1 self alloc1.2
  | .raw ref => add_schema_tail σ self ref

/-- `SchemaRoot.add_object(obj)`: `self._root_node.add_object(obj)`. -/
def SchemaRoot.add_object (self : SchemaRoot) (v : JVal) : SchemaRoot :=
  { self with _root_node := self._root_node.add_object v }

/-- `SchemaRoot.__len__`: `len(self._root_node)`. -/
def SchemaRoot.size (self : SchemaRoot) : Nat := self._root_node.size

/-- `SchemaRoot.__eq__` on two `SchemaRoot`s: the `self is other`
identity short-circuit and the `isinstance` type test both collapse in a
typed value model, leaving `self._root_node == other._root_node`. -/
def SchemaRoot.eq (self other : SchemaRoot) : Bool :=
  SchemaNode.beq self._root_node other._root_node

/-- `SchemaRoot.__ne__`: `not self.__eq__(other)`. -/
def SchemaRoot.ne (self other : SchemaRoot) : Bool :=
  !(self.eq other)

/-- One call in an Aggregator's life, for quantifying over call
histories. -/
inductive AggOp where
  | addSchema (inp : SchemaInput) : AggOp
  | addObject (v : JVal) : AggOp

/-- Run a list of `add_schema`/`add_object` calls left to right. -/
def runOps (σ : Store) (r : SchemaRoot) : List AggOp → Store × SchemaRoot
  | [] => (σ, r)
  | .addSchema inp :: ops =>
      let res := r.add_schema σ inp
      runOps res.1 res.2 ops
  | .addObject v :: ops => runOps σ (r.add_object v) ops

/-! ### Basic lemmas about the dict and store operations -/

theorem hasKey_delKey (o : JsonObj) (k : String) : hasKey (delKey o k) k = false := by
  rw [hasKey, List.any_eq_false]
  intro p hp
  rw [delKey, List.mem_filter] at hp
  simpa using hp.2

theorem hasKey_false_iff (o : JsonObj) (k : String) :
    hasKey o k = false ↔ k ∉ keys o := by
  induction o with
  | nil => simp [hasKey, keys]
  | cons p ps ih => 
      simp [hasKey, keys, List.any] at ih ⊢
      constructor
      · intro h
        exact ⟨fun hk => h.1 hk.symm, ih.mp h.2⟩
      · intro h
        exact ⟨fun hk => h.1 hk.symm, ih.mpr h.2⟩

theorem Store.get_alloc (σ : Store) (v : JsonObj) :
    (σ.alloc v).1.get (σ.alloc v).2 = v := by
  simp [Store.alloc, Store.get, List.getD_append_right]

theorem Store.get_alloc_lt (σ : Store) (v : JsonObj) (r : Nat)
    (h : r < σ.dicts.length) : (σ.alloc v).1.get r = σ.get r := by
  simp [Store.alloc, Store.get, List.getD, List.getElem?_append_left h]

theorem Store.get_set_self (σ : Store) (r : Nat) (v : JsonObj)
    (h : r < σ.dicts.length) : (σ.set r v).get r = v := by
  simp [Store.set, Store.get, List.getD, List.getElem?_set_self, h]

theorem Store.get_set_ne (σ : Store) (r r' : Nat) (v : JsonObj)
    (h : r ≠ r') : (σ.set r v).get r' = σ.get r' := by
  simp [Store.set, Store.get, List.getD, List.getElem?_set_ne h]

theorem hasKey_true_iff (o : JsonObj) (k : String) :
    hasKey o k = true ↔ k ∈ keys o := by
  rw [← not_iff_not]
  simp only [Bool.not_eq_true]
  exact hasKey_false_iff o k

theorem lookupKey_eq_none_of_hasKey_false (o : JsonObj) (k : String)
    (h : hasKey o k = false) : lookupKey o k = none := by
  induction o with
  | nil => rfl
  | cons p ps ih =>
      simp only [hasKey, List.any_cons, Bool.or_eq_false_iff] at h
      simp only [lookupKey]
      rw [if_neg (by simpa using h.1)]
      exact ih h.2

theorem pyOr_truthy (x : Option JVal) (y : JVal) (h : truthyO x = true) :
    pyOr x y = x := by
  simp [pyOr, h]

theorem pyOrD_truthy (v : JVal) (y : JVal) (h : truthyV v = true) :
    pyOrD (some v) y = v := by
  simp [pyOrD, h]

/-- The map half of `updateObj` keeps the keys of `a` unchanged. -/
theorem keys_updateObj (a b : JsonObj) :
    keys (updateObj a b) = keys a ++ keys (b.filter (fun p => ¬ hasKey a p.1)) := by
  simp only [updateObj, keys, List.map_append, List.append_cancel_right_eq]
  induction a with
  | nil => rfl
  | cons p ps ih =>
      simp only [List.map_cons, List.cons.injEq]
      refine ⟨?_, ih⟩
      cases lookupKey b p.1 <;> rfl

/-- On a fragment whose keys include `k`, `updateObj` keeps `k` present. -/
theorem hasKey_updateObj_left (a b : JsonObj) (k : String)
    (h : hasKey a k = true) : hasKey (updateObj a b) k = true := by
  rw [hasKey_true_iff] at h ⊢
  rw [keys_updateObj]
  exact List.mem_append_left _ h

/-- Looking up the base key of `updateObj [(k, d)] ts` when `ts` does not
carry `k`. -/
theorem lookupKey_base_update (k : String) (d : JVal) (ts : JsonObj)
    (h : hasKey ts k = false) :
    lookupKey (updateObj [(k, d)] ts) k = some d := by
  simp only [updateObj, List.map_cons, List.map_nil,
    lookupKey_eq_none_of_hasKey_false ts k h]
  simp [lookupKey]

/-! ### Unfolding lemmas for `add_schema_tail` and `add_schema` -/

/-- `add_schema_tail` when the fragment has no dialect key: nothing in
the store changes, the dialect is untouched, the fragment goes to the
engine as-is. -/
theorem add_schema_tail_no_dialect (σ : Store) (self : SchemaRoot) (ref : Nat)
    (h : hasKey (σ.get ref) "$schema" = false) :
    add_schema_tail σ self ref =
      (σ, { self with _root_node := self._root_node.add_schema (σ.get ref) }) := by
  rw [add_schema_tail]
  simp only [h, Bool.false_eq_true, if_false]

/-- `add_schema_tail` when the fragment carries a dialect key: the
dialect is folded into `schema_uri` with Python `or`, a copy of the
fragment is allocated, the key is deleted from the copy, and the copy is
delegated. -/
theorem add_schema_tail_dialect (σ : Store) (self : SchemaRoot) (ref : Nat)
    (h : hasKey (σ.get ref) "$schema" = true) :
    add_schema_tail σ self ref =
      ((σ.alloc (σ.get ref)).1.set (σ.alloc (σ.get ref)).2 (delKey (σ.get ref) "$schema"),
       { _root_node := self._root_node.add_schema (delKey (σ.get ref) "$schema"),
         schema_uri := pyOr self.schema_uri ((lookupKey (σ.get ref) "$schema").getD .null) }) := by
  rw [add_schema_tail]
  simp only [h, if_true, Store.get_alloc]
  have hlen : (σ.alloc (σ.get ref)).2 < (σ.alloc (σ.get ref)).1.dicts.length := by
    simp [Store.alloc]
  rw [Store.get_set_self _ _ _ hlen]

/-- Every branch of `add_schema_tail` leaves the pre-existing dict
objects of the store unchanged (writes only hit freshly allocated
copies). -/
theorem add_schema_tail_frame (σ : Store) (self : SchemaRoot) (ref : Nat)
    (r : Nat) (h : r < σ.dicts.length) :
    (add_schema_tail σ self ref).1.get r = σ.get r := by
  by_cases hk : hasKey (σ.get ref) "$schema" = true
  · rw [add_schema_tail_dialect σ self ref hk]
    have hne : (σ.alloc (σ.get ref)).2 ≠ r := by
      simp only [Store.alloc]
      omega
    rw [Store.get_set_ne _ _ _ _ hne, Store.get_alloc_lt _ _ _ h]
  · rw [add_schema_tail_no_dialect σ self ref (by simpa using hk)]

/-- `add_schema` never writes to a pre-existing dict object: every write
goes to a dict it freshly allocated (the `to_schema()` result or the
`dict(schema)` copy). -/
theorem add_schema_frame (σ : Store) (self : SchemaRoot) (inp : SchemaInput)
    (r : Nat) (h : r < σ.dicts.length) :
    (SchemaRoot.add_schema σ self inp).1.get r = σ.get r := by
  match inp with
  | .raw ref =>
      exact add_schema_tail_frame σ self ref r h
  | .node n =>
      rw [SchemaRoot.add_schema]
      have h1 : r < (σ.alloc n.to_schema).1.dicts.length := by
        simp [Store.alloc]; omega
      rw [add_schema_tail_frame _ _ _ r h1, Store.get_alloc_lt _ _ _ h]
  | .root b =>
      rw [SchemaRoot.add_schema]
      by_cases hb : b.schema_uri = none
      · rw [if_pos hb]
        have hlen : r < ((σ.alloc b.to_schema).1.set (σ.alloc b.to_schema).2
            (delKey ((σ.alloc b.to_schema).1.get (σ.alloc b.to_schema).2) "$schema")).dicts.length := by
          simp [Store.alloc, Store.set]; omega
        rw [add_schema_tail_frame _ _ _ r hlen]
        have hne : (σ.alloc b.to_schema).2 ≠ r := by
          simp only [Store.alloc]; omega
        rw [Store.get_set_ne _ _ _ _ hne, Store.get_alloc_lt _ _ _ h]
      · rw [if_neg hb]
        have h1 : r < (σ.alloc b.to_schema).1.dicts.length := by
          simp [Store.alloc]; omega
        rw [add_schema_tail_frame _ _ _ r h1, Store.get_alloc_lt _ _ _ h]

/-! ### The claims -/

/-- C9: `add_object` delegates to the engine only; the `schema_uri`
attribute (the dialect identifier) is never touched by it — it is
mutated at most by `add_schema`. -/
theorem addObject_never_touches_dialect (r : SchemaRoot) (v : JVal) :
    (r.add_object v).schema_uri = r.schema_uri := rfl

/-- C2: merging a `SchemaRoot` whose `schema_uri` is unset strips the
`$schema` field from its serialized fragment before use, so a receiver
with unset `schema_uri` stays unset — the default dialect constant never
leaks in as if it had been explicitly carried. -/
theorem addFragment_unset_root_keeps_receiver_unset (σ : Store) (a b : SchemaRoot)
    (ha : a.schema_uri = none) (hb : b.schema_uri = none) :
    (SchemaRoot.add_schema σ a (.root b)).2.schema_uri = none := by
  rw [SchemaRoot.add_schema]
  rw [if_pos hb]
  have hlen : (σ.alloc b.to_schema).2 < (σ.alloc b.to_schema).1.dicts.length := by
    simp [Store.alloc]
  have hget : ((σ.alloc b.to_schema).1.set (σ.alloc b.to_schema).2
      (delKey ((σ.alloc b.to_schema).1.get (σ.alloc b.to_schema).2) "$schema")).get
        (σ.alloc b.to_schema).2 = delKey b.to_schema "$schema" := by
    rw [Store.get_set_self _ _ _ hlen, Store.get_alloc]
  rw [add_schema_tail_no_dialect _ _ _ (by rw [hget]; exact hasKey_delKey _ _)]
  exact ha

/-- Closed-form witness for C2 at a concrete input: both aggregators
fresh and unset, an arbitrary dict already alive in the store. -/
theorem addFragment_unset_root_keeps_receiver_unset_witness :
    (SchemaRoot.add_schema (Store.mk [[("type", JVal.str "object")]])
      (SchemaRoot.new none) (.root (SchemaRoot.new none))).2.schema_uri = none :=
  addFragment_unset_root_keeps_receiver_unset _ _ _ rfl rfl

/-- C4: a raw fragment passed to `add_schema` with a `$schema` key is
not mutated: the source deletes the key from the copy made by
`dict(schema)`, so the caller's dict object is bit-for-bit unchanged
after the call (its dialect key still present with the same value). -/
theorem addFragment_does_not_mutate_caller_dict (σ : Store) (self : SchemaRoot)
    (ref : Nat) (h : hasKey (σ.get ref) "$schema" = true) :
    (SchemaRoot.add_schema σ self (.raw ref)).1.get ref = σ.get ref := by
  have hlive : ref < σ.dicts.length := by
    by_contra hge
    have : σ.get ref = [] := by
      simp only [Store.get]
      rw [List.getD_eq_default]
      omega
    rw [this] at h
    simp [hasKey] at h
  exact add_schema_frame σ self (.raw ref) ref hlive

/-- Closed-form witness for C4: a concrete dict carrying `$schema` is
unchanged in the store after the call. -/
theorem addFragment_does_not_mutate_caller_dict_witness :
    (SchemaRoot.add_schema (Store.mk [[("$schema", JVal.str "U1"), ("type", JVal.str "object")]])
      (SchemaRoot.new none) (.raw 0)).1.get 0
      = [("$schema", JVal.str "U1"), ("type", JVal.str "object")] :=
  addFragment_does_not_mutate_caller_dict _ _ _ (by decide)

/-- C10: merging one aggregator into another leaves the donor unchanged:
the `$schema` deletion in the `isinstance(schema, SchemaRoot)` branch is
applied to the fresh dict returned by `b.to_schema()` (a fresh
allocation), never to any pre-existing object, and no field of `b`
itself is assigned — in this value model `b` is untouched by
construction, and every dict object alive before the call is untouched
in the store. -/
theorem addFragment_root_leaves_donor_unchanged (σ : Store) (a b : SchemaRoot)
    (r : Nat) (h : r < σ.dicts.length) :
    (SchemaRoot.add_schema σ a (.root b)).1.get r = σ.get r :=
  add_schema_frame σ a (.root b) r h

/-- Closed-form witness for C10 at a concrete store and donor. -/
theorem addFragment_root_leaves_donor_unchanged_witness :
    (SchemaRoot.add_schema (Store.mk [[("type", JVal.str "string")]])
      (SchemaRoot.new none)
      (.root (SchemaRoot.new (some (JVal.str "U1"))))).1.get 0
      = [("type", JVal.str "string")] :=
  addFragment_root_leaves_donor_unchanged _ _ _ 0 (by decide)

/-- Both branches of `add_schema_tail` delegate exactly one fragment to
the engine, and that fragment has no `$schema` key. -/
theorem add_schema_tail_items (σ : Store) (self : SchemaRoot) (ref : Nat) :
    ∃ g, (add_schema_tail σ self ref).2._root_node.items
        = self._root_node.items ++ [.frag g] ∧ hasKey g "$schema" = false := by
  by_cases hk : hasKey (σ.get ref) "$schema" = true
  · refine ⟨delKey (σ.get ref) "$schema", ?_, hasKey_delKey _ _⟩
    rw [add_schema_tail_dialect σ self ref hk]
    rfl
  · refine ⟨σ.get ref, ?_, by simpa using hk⟩
    rw [add_schema_tail_no_dialect σ self ref (by simpa using hk)]
    rfl

/-- C5: whichever of the three input variants is supplied, the fragment
finally delegated to the engine (the one new entry of the engine's log)
never contains a `$schema` key. -/
theorem engine_never_receives_dialect_key (σ : Store) (self : SchemaRoot)
    (inp : SchemaInput) :
    ∃ g, (SchemaRoot.add_schema σ self inp).2._root_node.items
        = self._root_node.items ++ [.frag g] ∧ hasKey g "$schema" = false := by
  match inp with
  | .raw ref => exact add_schema_tail_items σ self ref
  | .node n =>
      rw [SchemaRoot.add_schema]
      exact add_schema_tail_items _ self _
  | .root b =>
      rw [SchemaRoot.add_schema]
      by_cases hb : b.schema_uri = none
      · rw [if_pos hb]
        exact add_schema_tail_items _ self _
      · rw [if_neg hb]
        exact add_schema_tail_items _ self _

/-- `add_schema_tail` leaves a truthy `schema_uri` unchanged (Python
`or` keeps its left operand when it is truthy). -/
theorem add_schema_tail_uri_truthy (σ : Store) (self : SchemaRoot) (ref : Nat)
    (h : truthyO self.schema_uri = true) :
    (add_schema_tail σ self ref).2.schema_uri = self.schema_uri := by
  by_cases hk : hasKey (σ.get ref) "$schema" = true
  · rw [add_schema_tail_dialect σ self ref hk]
    exact pyOr_truthy _ _ h
  · rw [add_schema_tail_no_dialect σ self ref (by simpa using hk)]

/-- C1 counterexample: an Aggregator constructed with the explicitly
supplied dialect identifier `""` has its identifier *set* (it is not
`None`), yet a later fragment carrying `"U2"` overwrites it, because the
source's `self.schema_uri = self.schema_uri or schema['$schema']` treats
the falsy empty string like an unset value. -/
theorem first_wins_dialect_cex :
    (SchemaRoot.mk SchemaNode.new (some (JVal.str ""))).schema_uri.isSome = true ∧
    (SchemaRoot.add_schema (Store.mk [[("$schema", JVal.str "U2")]])
        (SchemaRoot.mk SchemaNode.new (some (JVal.str ""))) (.raw 0)).2.schema_uri
      ≠ (SchemaRoot.mk SchemaNode.new (some (JVal.str ""))).schema_uri := by
  exact ⟨rfl, by decide⟩

/-- C1 (amended): once the dialect identifier holds a *truthy* value
(e.g. a non-empty string such as `"U1"`) — whether supplied at
construction or adopted from an earlier merged fragment — no subsequent
`add_schema` call changes it; and a receiver with unset identifier
adopts the (truthy) identifier `u` carried by a merged Aggregator. -/
theorem first_wins_dialect_truthy :
    (∀ (σ : Store) (self : SchemaRoot) (inp : SchemaInput),
      truthyO self.schema_uri = true →
      (SchemaRoot.add_schema σ self inp).2.schema_uri = self.schema_uri) ∧
    (∀ (σ : Store) (a b : SchemaRoot) (u : JVal),
      a.schema_uri = none → b.schema_uri = some u → truthyV u = true →
      hasKey b._root_node.to_schema "$schema" = false →
      (SchemaRoot.add_schema σ a (.root b)).2.schema_uri = some u) := by
  constructor
  · intro σ self inp h
    match inp with
    | .raw ref => exact add_schema_tail_uri_truthy σ self ref h
    | .node n =>
        rw [SchemaRoot.add_schema]
        exact add_schema_tail_uri_truthy _ self _ h
    | .root b =>
        rw [SchemaRoot.add_schema]
        by_cases hb : b.schema_uri = none
        · rw [if_pos hb]
          exact add_schema_tail_uri_truthy _ self _ h
        · rw [if_neg hb]
          exact add_schema_tail_uri_truthy _ self _ h
  · intro σ a b u ha hb hu hns
    rw [SchemaRoot.add_schema]
    rw [if_neg (by rw [hb]; exact fun h => Option.noConfusion h)]
    have hget : (σ.alloc b.to_schema).1.get (σ.alloc b.to_schema).2 = b.to_schema :=
      Store.get_alloc σ _
    have hbase : hasKey b._base_schema "$schema" = true := by
      simp [hasKey, SchemaRoot._base_schema]
    have hk : hasKey ((σ.alloc b.to_schema).1.get (σ.alloc b.to_schema).2) "$schema" = true := by
      rw [hget, SchemaRoot.to_schema]
      exact hasKey_updateObj_left _ _ _ hbase
    rw [add_schema_tail_dialect _ _ _ hk]
    simp only [hget]
    have hlook : lookupKey b.to_schema "$schema" = some (pyOrD b.schema_uri DEFAULT_URI) := by
      rw [SchemaRoot.to_schema, SchemaRoot._base_schema]
      exact lookupKey_base_update _ _ _ hns
    rw [hlook, hb, pyOrD_truthy u _ hu]
    simp [pyOr, ha, truthyO]

/-- Closed-form witness for C1 (amended): `a` with unset identifier
absorbs `b` carrying `"U1"` and adopts it; the result (now truthy) then
absorbs a raw fragment carrying `"U2"` and keeps `"U1"`. -/
theorem first_wins_dialect_truthy_witness :
    ((SchemaRoot.add_schema (Store.mk []) (SchemaRoot.new none)
        (.root (SchemaRoot.mk SchemaNode.new (some (JVal.str "U1"))))).2.schema_uri
      = some (JVal.str "U1")) ∧
    ((SchemaRoot.add_schema (Store.mk [[("$schema", JVal.str "U2")]])
        (SchemaRoot.mk SchemaNode.new (some (JVal.str "U1"))) (.raw 0)).2.schema_uri
      = (SchemaRoot.mk SchemaNode.new (some (JVal.str "U1"))).schema_uri) :=
  ⟨first_wins_dialect_truthy.2 _ _ _ (JVal.str "U1") rfl rfl (by decide) (by decide),
   first_wins_dialect_truthy.1 _ _ _ (by decide)⟩

/-- C3 counterexample: with the dialect identifier *set* to the (falsy)
empty string at construction, `to_schema` emits the default constant
instead of the set value, because `_base_schema` computes
`self.schema_uri or self.DEFAULT_URI` with Python truthiness. -/
theorem to_schema_dialect_field_cex :
    (SchemaRoot.mk SchemaNode.new (some (JVal.str ""))).schema_uri.isSome = true ∧
    lookupKey (SchemaRoot.mk SchemaNode.new (some (JVal.str ""))).to_schema "$schema"
      = some DEFAULT_URI ∧
    some DEFAULT_URI ≠ (SchemaRoot.mk SchemaNode.new (some (JVal.str ""))).schema_uri := by
  exact ⟨rfl, by decide, by decide⟩

/-- C3 (amended): provided the engine's fragment carries no `$schema`
key (its §6 contract), `to_schema()` emits a `$schema` field equal to
`schema_uri or DEFAULT_URI`: the Aggregator's own identifier whenever
that is truthy (in particular any non-empty string), and the fixed
default constant whenever it is unset (or falsy). -/
theorem to_schema_dialect_field (r : SchemaRoot)
    (hns : hasKey r._root_node.to_schema "$schema" = false) :
    lookupKey r.to_schema "$schema" = some (pyOrD r.schema_uri DEFAULT_URI) ∧
    (truthyO r.schema_uri = true → lookupKey r.to_schema "$schema" = r.schema_uri) ∧
    (r.schema_uri = none → lookupKey r.to_schema "$schema" = some DEFAULT_URI) := by
  have hmain : lookupKey r.to_schema "$schema" = some (pyOrD r.schema_uri DEFAULT_URI) := by
    rw [SchemaRoot.to_schema, SchemaRoot._base_schema]
    exact lookupKey_base_update _ _ _ hns
  refine ⟨hmain, ?_, ?_⟩
  · intro ht
    rw [hmain]
    match r, ht with
    | ⟨n, some v⟩, ht => 
        simp only [truthyO] at ht
        rw [pyOrD_truthy v _ ht]
  · intro hn
    rw [hmain, hn]
    rfl

/-- Closed-form witness for C3 (amended) on a fresh Aggregator carrying
`"U1"`. -/
theorem to_schema_dialect_field_witness :
    lookupKey (SchemaRoot.mk SchemaNode.new (some (JVal.str "U1"))).to_schema "$schema"
      = some (pyOrD (some (JVal.str "U1")) DEFAULT_URI) :=
  (to_schema_dialect_field (SchemaRoot.mk SchemaNode.new (some (JVal.str "U1"))) (by decide)).1

/-- The engine's structural equality is reflexive (each log contains
every entry of the other). -/
theorem SchemaNode.beq_refl (n : SchemaNode) : SchemaNode.beq n n = true := by
  simp only [SchemaNode.beq, Bool.and_self, List.all_eq_true]
  intro i hi
  exact List.elem_eq_true_of_mem hi

/-- C6: `__eq__` holds iff the two engines are structurally equal;
comparing an Aggregator with itself yields true; the dialect identifier
is excluded, so identical engine content with different `schema_uri`
values still compares equal; `__ne__` is the negation of `__eq__`. -/
theorem aggregator_equality (a b : SchemaRoot) (n : SchemaNode) (u1 u2 : Option JVal) :
    (SchemaRoot.eq a a = true) ∧
    (SchemaRoot.eq a b = SchemaNode.beq a._root_node b._root_node) ∧
    (SchemaRoot.eq (SchemaRoot.mk n u1) (SchemaRoot.mk n u2) = true) ∧
    (SchemaRoot.ne a b = !(SchemaRoot.eq a b)) :=
  ⟨SchemaNode.beq_refl _, rfl, SchemaNode.beq_refl n, rfl⟩

/-- Each `add_schema_tail` grows the engine log by exactly one entry. -/
theorem add_schema_tail_size (σ : Store) (self : SchemaRoot) (ref : Nat) :
    (add_schema_tail σ self ref).2.size = self.size + 1 := by
  by_cases hk : hasKey (σ.get ref) "$schema" = true
  · rw [add_schema_tail_dialect σ self ref hk]
    simp [SchemaRoot.size, SchemaNode.size, SchemaNode.add_schema]
  · rw [add_schema_tail_no_dialect σ self ref (by simpa using hk)]
    simp [SchemaRoot.size, SchemaNode.size, SchemaNode.add_schema]

/-- Each `add_schema` call grows the engine log by exactly one entry. -/
theorem add_schema_size (σ : Store) (self : SchemaRoot) (inp : SchemaInput) :
    (SchemaRoot.add_schema σ self inp).2.size = self.size + 1 := by
  match inp with
  | .raw ref => exact add_schema_tail_size σ self ref
  | .node n =>
      rw [SchemaRoot.add_schema]
      exact add_schema_tail_size _ self _
  | .root b =>
      rw [SchemaRoot.add_schema]
      by_cases hb : b.schema_uri = none
      · rw [if_pos hb]
        exact add_schema_tail_size _ self _
      · rw [if_neg hb]
        exact add_schema_tail_size _ self _

/-- Each `add_object` call grows the engine log by exactly one entry. -/
theorem add_object_size (self : SchemaRoot) (v : JVal) :
    (self.add_object v).size = self.size + 1 := by
  simp [SchemaRoot.size, SchemaNode.size, SchemaRoot.add_object, SchemaNode.add_object]

/-- Running a call history grows the engine log by one entry per call. -/
theorem runOps_size (ops : List AggOp) : ∀ (σ : Store) (r : SchemaRoot),
    (runOps σ r ops).2.size = r.size + ops.length := by
  induction ops with
  | nil => intro σ r; simp [runOps]
  | cons op ops ih =>
      intro σ r
      match op with
      | .addSchema inp =>
          rw [runOps, ih]
          rw [add_schema_size]
          simp only [List.length_cons]
          omega
      | .addObject v =>
          rw [runOps, ih]
          rw [add_object_size]
          simp only [List.length_cons]
          omega

/-- C8: a freshly constructed Aggregator is empty (`size() == 0`), the
size is `0` exactly when no `add_schema`/`add_object` call has ever been
made, and after any single such call the size is positive. -/
theorem aggregator_emptiness (u : Option JVal) :
    (SchemaRoot.new u).size = 0 ∧
    (∀ (σ : Store) (ops : List AggOp),
      ((runOps σ (SchemaRoot.new u) ops).2.size = 0 ↔ ops = [])) ∧
    (∀ (σ : Store) (op : AggOp), 0 < (runOps σ (SchemaRoot.new u) [op]).2.size) := by
  refine ⟨rfl, ?_, ?_⟩
  · intro σ ops
    rw [runOps_size]
    show 0 + ops.length = 0 ↔ ops = []
    simp
  · intro σ op
    rw [runOps_size]
    show 0 < 0 + [op].length
    simp

/-- On a dict with unique keys, looking up the key of a member entry
returns that entry's value. -/
theorem lookupKey_of_mem_nodup (o : JsonObj) (p : String × JVal)
    (hnd : (keys o).Nodup) (hp : p ∈ o) : lookupKey o p.1 = some p.2 := by
  induction o with
  | nil => cases hp
  | cons q qs ih =>
      rw [keys, List.map_cons, List.nodup_cons] at hnd
      rcases List.mem_cons.mp hp with h | h
      · subst h
        simp [lookupKey]
      · rw [lookupKey]
        rw [if_neg ?_]
        · exact ih hnd.2 h
        · intro hq
          exact hnd.1 (hq ▸ List.mem_map_of_mem Prod.fst h)

/-- Python `X.update(X)` is the identity on a dict with unique keys. -/
theorem updateObj_self (o : JsonObj) (hnd : (keys o).Nodup) :
    updateObj o o = o := by
  rw [updateObj]
  have hmap : (o.map (fun p =>
      match lookupKey o p.1 with
      | some v => (p.1, v)
      | none => p)) = o := by
    conv_rhs => rw [← List.map_id o]
    refine List.map_congr_left ?_
    intro p hp
    rw [lookupKey_of_mem_nodup o p hnd hp]
    rfl
  have hfil : o.filter (fun p => ¬ hasKey o p.1) = [] := by
    rw [List.filter_eq_nil_iff]
    intro p hp
    have h1 : hasKey o p.1 = true := by
      rw [hasKey_true_iff]
      exact List.mem_map_of_mem Prod.fst hp
    simp [h1]
  rw [hmap, hfil, List.append_nil]

/-- Deleting the single base key from `updateObj [(k, d)] ts` recovers
`ts` when `ts` does not carry `k`. -/
theorem delKey_base_update (k : String) (d : JVal) (ts : JsonObj)
    (h : hasKey ts k = false) :
    delKey (updateObj [(k, d)] ts) k = ts := by
  rw [updateObj, delKey]
  rw [List.filter_append]
  have hhead : ([(k, d)].map (fun p =>
      match lookupKey ts p.1 with
      | some v => (p.1, v)
      | none => p)).filter (fun p => p.1 ≠ k) = [] := by
    rw [List.map_cons, List.map_nil]
    cases hl : lookupKey ts k <;> simp [List.filter]
  rw [hhead, List.nil_append]
  rw [List.filter_filter]
  rw [List.filter_eq_self]
  intro p hp
  have hpk : ¬ p.1 = k := by
    intro hq
    rw [hasKey_false_iff] at h
    exact h (hq ▸ List.mem_map_of_mem Prod.fst hp)
  have hkp : ¬ k = p.1 := fun hq => hpk hq.symm
  simp [hasKey, hpk, hkp]

/-- The engine's output after absorbing one more fragment is the merged
update of its previous output with that fragment. -/
theorem SchemaNode.to_schema_add_schema (n : SchemaNode) (f : JsonObj) :
    (n.add_schema f).to_schema = updateObj n.to_schema f := by
  rw [SchemaNode.to_schema, SchemaNode.add_schema, SchemaNode.to_schema]
  rw [List.foldl_append]
  rfl

/-- How the dialect value emitted by `_base_schema` behaves when the
current output's `$schema` value is folded back in through
`self.schema_uri or ...`: the emitted value does not change. -/
theorem pyOrD_readopt (x : Option JVal) :
    pyOrD (pyOr x (pyOrD x DEFAULT_URI)) DEFAULT_URI = pyOrD x DEFAULT_URI := by
  by_cases h : truthyO x = true
  · rw [pyOr_truthy _ _ h]
  · have hx : pyOr x (pyOrD x DEFAULT_URI) = some (pyOrD x DEFAULT_URI) := by
      rw [pyOr, if_neg (by simpa using h)]
    rw [hx]
    match x, h with
    | none, _ =>
        show pyOrD (some DEFAULT_URI) DEFAULT_URI = DEFAULT_URI
        rfl
    | some v, h =>
        have hv : truthyV v = false := by simpa [truthyO] using h
        show pyOrD (some (pyOrD (some v) DEFAULT_URI)) DEFAULT_URI = pyOrD (some v) DEFAULT_URI
        have hinner : pyOrD (some v) DEFAULT_URI = DEFAULT_URI := by
          simp [pyOrD, hv]
        rw [hinner]
        have hd : truthyV DEFAULT_URI = true := by decide
        simp [pyOrD, hd]

/-- C7: re-merging an Aggregator's own serialized output changes
nothing observable: `a.add_schema(a.to_schema())` leaves the value of
`a.to_schema()` unchanged, provided the engine's fragment satisfies its
§6 contract (no `$schema` key; and unique keys, as any dict-shaped
fragment has). -/
theorem addFragment_self_idempotent (σ : Store) (r : SchemaRoot)
    (hnd : (keys r._root_node.to_schema).Nodup)
    (hns : hasKey r._root_node.to_schema "$schema" = false) :
    (SchemaRoot.add_schema (σ.alloc r.to_schema).1 r
        (.raw (σ.alloc r.to_schema).2)).2.to_schema = r.to_schema := by
  rw [SchemaRoot.add_schema]
  have hget : (σ.alloc r.to_schema).1.get (σ.alloc r.to_schema).2 = r.to_schema :=
    Store.get_alloc σ _
  have hbase : hasKey r._base_schema "$schema" = true := by
    simp [hasKey, SchemaRoot._base_schema]
  have hk : hasKey ((σ.alloc r.to_schema).1.get (σ.alloc r.to_schema).2) "$schema" = true := by
    rw [hget, SchemaRoot.to_schema]
    exact hasKey_updateObj_left _ _ _ hbase
  rw [add_schema_tail_dialect _ _ _ hk]
  simp only [hget]
  have hlook : lookupKey r.to_schema "$schema" = some (pyOrD r.schema_uri DEFAULT_URI) := by
    rw [SchemaRoot.to_schema, SchemaRoot._base_schema]
    exact lookupKey_base_update _ _ _ hns
  have hdel : delKey r.to_schema "$schema" = r._root_node.to_schema := by
    rw [SchemaRoot.to_schema, SchemaRoot._base_schema]
    exact delKey_base_update _ _ _ hns
  rw [hlook, hdel]
  show updateObj
      [("$schema", pyOrD (pyOr r.schema_uri ((some (pyOrD r.schema_uri DEFAULT_URI)).getD .null))
        DEFAULT_URI)]
      ((r._root_node.add_schema r._root_node.to_schema).to_schema)
    = r.to_schema
  rw [SchemaNode.to_schema_add_schema, updateObj_self _ hnd]
  show updateObj [("$schema", pyOrD (pyOr r.schema_uri (pyOrD r.schema_uri DEFAULT_URI))
      DEFAULT_URI)] r._root_node.to_schema = r.to_schema
  rw [pyOrD_readopt]
  rfl

/-- Closed-form witness for C7: an Aggregator that has absorbed one
fragment re-absorbs its own output without change. -/
theorem addFragment_self_idempotent_witness :
    (SchemaRoot.add_schema
        ((Store.mk []).alloc (SchemaRoot.mk (SchemaNode.mk [.frag [("type", JVal.str "object")]])
          none).to_schema).1
        (SchemaRoot.mk (SchemaNode.mk [.frag [("type", JVal.str "object")]]) none)
        (.raw ((Store.mk []).alloc (SchemaRoot.mk (SchemaNode.mk
          [.frag [("type", JVal.str "object")]]) none).to_schema).2)).2.to_schema
      = (SchemaRoot.mk (SchemaNode.mk [.frag [("type", JVal.str "object")]]) none).to_schema :=
  addFragment_self_idempotent _ _ (by decide) (by decide)
